import Mathlib

/-
Verification development for the SuperSelect layer-selection controller
(src/unnamed/part_000): clickCommand, doubleClickCommand, backOutCommand,
nextSiblingCommand, diveInCommand, marqueeSelectCommand, editLayerCommand
and their private helpers.  The layer-tree document model, the collection
utilities and the UI coordinate transforms live elsewhere in the repository
(not under src/); they are modelled here as abstract data and parameters,
as noted on each definition.
-/

namespace SuperSelect

/-- Modelled from the spec: the bounds model of the host document
(js/models/bounds, not under src/).  A rectangular bounding box with a
containment test used for hit-testing layer bounds against a point. -/
structure Bounds where
  top : ℚ
  left : ℚ
  bottom : ℚ
  right : ℚ
deriving DecidableEq

/-- Modelled from the spec: Bounds.contains of the bounds model
(not under src/): the point lies inside the rectangle. -/
def Bounds.contains (b : Bounds) (x y : ℚ) : Bool :=
  decide (b.left ≤ x) && decide (x ≤ b.right) && decide (b.top ≤ y) && decide (y ≤ b.bottom)

/-- Layer kinds referenced by the controller: layer.layerKinds with the
members VECTOR, TEXT, SMARTOBJECT and GROUPEND that the source dispatches
on, plus the remaining kinds collapsed into representative members. -/
inductive LayerKind where
  | vector
  | text
  | smartobject
  | group
  | groupend
  | pixel
  | adjustment
deriving DecidableEq

/-- Modelled from the spec: the Layer model of the host document
(js/models/layer, not under src/).  Only the fields the controller reads
are kept.  childBounds records the result of layerTree.childBounds for
this layer and badgeBounds the result of uiUtil.getNameBadgeBounds for
artboards, both computed by collaborators outside src/. -/
structure Layer where
  id : Nat
  selected : Bool
  superSelectable : Bool
  locked : Bool
  kind : LayerKind
  isBackground : Bool
  isArtboard : Bool
  bounds : Option Bounds
  childBounds : Option Bounds
  badgeBounds : Option Bounds
deriving DecidableEq

/-- Modelled from the spec: the LayerStructure document model
(js/models/layerstructure, not under src/).  all is the full layer list in
model order, parentMap the child-to-parent relation on layer IDs, and top,
selectable and leaves are the computed layer collections that the
controller reads from the model. -/
structure LayerTree where
  all : List Layer
  parentMap : List (Nat × Nat)
  top : List Layer
  selectable : List Layer
  leaves : List Layer
deriving DecidableEq

/-- Modelled from the spec: LayerStructure.byID, the ID-to-layer lookup of
the document model (not under src/). -/
def LayerTree.byID (t : LayerTree) (i : Nat) : Option Layer :=
  t.all.find? (fun l => decide (l.id = i))

/-- Modelled from the spec: LayerStructure.selected, the list of selected
layers of the document model (not under src/). -/
def LayerTree.selectedLayers (t : LayerTree) : List Layer :=
  t.all.filter (fun l => l.selected)

/-- Modelled from the spec: LayerStructure.parent of the document model
(not under src/): the parent layer, if any. -/
def LayerTree.parent (t : LayerTree) (l : Layer) : Option Layer :=
  match t.parentMap.lookup l.id with
  | some pid => t.byID pid
  | none => none

/-- Modelled from the spec: LayerStructure.children of the document model
(not under src/): the child layers of a layer, in model order. -/
def LayerTree.children (t : LayerTree) (l : Layer) : List Layer :=
  t.all.filter (fun c => decide (t.parentMap.lookup c.id = some l.id))

/-- Modelled from the spec: LayerStructure.siblings of the document model
(not under src/): the layers sharing the parent of a layer, the layer
itself included; top-level layers are mutual siblings. -/
def LayerTree.siblings (t : LayerTree) (l : Layer) : List Layer :=
  t.all.filter (fun s => decide (t.parentMap.lookup s.id = t.parentMap.lookup l.id))

/-- Fuel-bounded walk up the parent chain, used to define ancestors. -/
def ancestorsAux (t : LayerTree) : Nat → Layer → List Layer
  | 0, _ => []
  | n + 1, l =>
    match t.parent l with
    | some p => p :: ancestorsAux t n p
    | none => []

/-- Modelled from the spec: LayerStructure.ancestors of the document model
(not under src/): the layer itself followed by its parent chain. -/
def LayerTree.ancestors (t : LayerTree) (l : Layer) : List Layer :=
  l :: ancestorsAux t t.all.length l

/-- Modelled from the spec: collection.pluck of the collection utilities
(js/util/collection, not under src/) applied to the id property. -/
def pluckID (layers : List Layer) : List Nat :=
  layers.map (fun l => l.id)

/-- Modelled from the spec: collection.intersection of the collection
utilities (not under src/) on layer collections: the elements of the
first collection that occur in the second, in first-collection order. -/
def intersectionL (a b : List Layer) : List Layer :=
  a.filter (fun x => decide (x ∈ b))

/-- Modelled from the spec: collection.intersection of the collection
utilities (not under src/) on ID collections. -/
def intersectionN (a b : List Nat) : List Nat :=
  a.filter (fun x => decide (x ∈ b))

/-- Immutable List indexOf semantics: the index of the first occurrence,
or -1 when the value does not occur. -/
def jsIndexOf (l : List Nat) (x : Nat) : Int :=
  match l.findIdx? (fun y => decide (y = x)) with
  | some i => (i : Int)
  | none => -1

/-- Immutable List indexOf semantics on layers, comparing layer values the
way Immutable.is compares records (structurally). -/
def jsIndexOfLayer (l : List Layer) (x : Layer) : Int :=
  match l.findIdx? (fun y => decide (y = x)) with
  | some i => (i : Int)
  | none => -1

/-- Stable insertion of an element into a list ordered by a key, placing
the element before the first strictly greater key and after equal keys of
earlier elements. -/
def insertByKey (key : Nat → Int) (x : Nat) : List Nat → List Nat
  | [] => [x]
  | y :: ys => if key x ≤ key y then x :: y :: ys else y :: insertByKey key x ys

/-- Immutable sortBy semantics: a stable sort of the list by the key. -/
def sortByKey (key : Nat → Int) (l : List Nat) : List Nat :=
  l.foldr (insertByKey key) []

/-- JavaScript remainder semantics: truncated remainder, taking the sign
of the dividend; the divisor zero yields NaN, modelled as none. -/
def jsRem (a : Int) (n : Nat) : Option Int :=
  if n = 0 then none
  else if 0 ≤ a then some (a % (n : Int)) else some (-((-a) % (n : Int)))

/-- Immutable List get semantics: a negative index counts from the end of
the list, an out-of-range or NaN index yields undefined (none). -/
def jsListGet (l : List Layer) (oi : Option Int) : Option Layer :=
  match oi with
  | none => none
  | some i =>
    if 0 ≤ i ∧ i < (l.length : Int) then l[i.toNat]?
    else if -(l.length : Int) ≤ i ∧ i < 0 then l[(i + (l.length : Int)).toNat]?
    else none

/-- Response payload of the hit-test query to the external process: on
success the descriptor result carries the hit layer IDs under the key
layersHit (source lines 147-158). -/
structure HitResult where
  layersHit : List Nat
deriving DecidableEq

/-- Embedding of getHitLayerIDs (source lines 147-158): the document
reference and point determine the query sent to the external process; the
response, success or failure, is the response argument.  A failed call
resolves with the empty ID list, a successful one with the IDs reported
under layersHit. -/
def getHitLayerIDs (_docId : Nat) (_x _y : ℚ) (response : Except Unit HitResult) : List Nat :=
  match response with
  | .ok r => r.layersHit
  | .error _ => []

/-- The modifier string passed to layerActions.select. -/
inductive Modifier where
  | select
  | deselect
  | add
deriving DecidableEq

/-- The selection-mutating effect a command transfers to the layer
actions.  A select carries the targets passed to layerActions.select as
optional IDs, none standing for an undefined layer reference (for
example, an Immutable get that returned undefined).  selectThenEdit is
the double-click edit branch (select the layer, then edit it at the given
window point), editLayer the keyboard edit branch (no coordinates). -/
inductive Action where
  | select (targets : List (Option Nat)) (modifier : Modifier)
  | deselectAll
  | selectThenEdit (i : Nat) (x y : ℚ)
  | editLayer (i : Nat)
  | noop
deriving DecidableEq

/-- Embedding of getContainingLayerBounds (source lines 170-187): the
layers of the tree whose effective bounds contain the point; for an
artboard the effective bounds are the name-badge bounds, otherwise the
childBounds computed by the tree. -/
def getContainingLayerBounds (t : LayerTree) (x y : ℚ) : List Layer :=
  t.all.filter (fun l =>
    match (if l.isArtboard then l.badgeBounds else l.childBounds) with
    | some b => b.contains x y
    | none => false)

/-- Embedding of getLeafLayersWithID (source lines 196-200): the leaf
layers of the tree whose ID occurs in the given ID collection. -/
def getLeafLayersWithID (t : LayerTree) (ids : List Nat) : List Layer :=
  t.leaves.filter (fun l => decide (l.id ∈ ids))

/-- Embedding of isOnlySelectedLayer (source lines 210-217): the
selection has size one and its sole member is the given layer. -/
def isOnlySelectedLayer (t : LayerTree) (l : Layer) : Bool :=
  match t.selectedLayers with
  | [s] => decide (s = l)
  | _ => false

/-- Embedding of getDiveableLayers (source lines 67-76): the children of
the given parent layers, flattened in order, restricted to
superSelectable layers. -/
def getDiveableLayers (t : LayerTree) (parentLayers : List Layer) : List Layer :=
  ((parentLayers.map (fun p => t.children p)).flatten).filter (fun l => l.superSelectable)

/-- Insertion into a JavaScript Set modelled as a duplicate-free list in
insertion order: adding a present element leaves the set unchanged. -/
def insertUnique (xs : List Layer) (x : Layer) : List Layer :=
  if x ∈ xs then xs else xs ++ [x]

/-- Embedding of getSelectedLayerParents (source lines 86-99): for each
selected layer, add its parent to the result set; a selected layer with
no parent is added itself when noDeselect is set and dropped otherwise. -/
def getSelectedLayerParents (t : LayerTree) (noDeselect : Bool) : List Layer :=
  t.selectedLayers.foldl
    (fun parents layer =>
      match t.parent layer with
      | some p => insertUnique parents p
      | none => if noDeselect then insertUnique parents layer else parents)
    []

/-- Embedding of getLayersBelowCurrentSelection (source lines 227-242):
the IDs of the covered layers that are unlocked, not group ends, and not
ancestors of any selected layer. -/
def getLayersBelowCurrentSelection (t : LayerTree) (coveredLayers : List Layer) : List Nat :=
  let selectedLayerAncestors :=
    t.selectedLayers.foldl (fun acc l => acc ++ t.ancestors l) []
  pluckID (coveredLayers.filter (fun l =>
    !l.locked && decide (l.kind ≠ LayerKind.groupend) && decide (l ∉ selectedLayerAncestors)))

/-- The sibling chosen by getNextSiblingsForSelectedLayers for one layer
(source lines 126-135): the superSelectable siblings are indexed at the
layer's position (0 when the filtered list is empty, -1 when the layer is
not in it) stepped forward or backward, reduced by the JavaScript
remainder and read back with the negative-index-wrapping Immutable get. -/
def nextSiblingChoice (sibs : List Layer) (layer : Layer) (previous : Bool) : Option Layer :=
  let step : Int := if previous then -1 else 1
  let layerIndex : Int := if sibs.isEmpty then 0 else jsIndexOfLayer sibs layer
  jsListGet sibs (jsRem (layerIndex + step) sibs.length)

/-- Embedding of getNextSiblingsForSelectedLayers (source lines 110-137):
empty for an empty tree; otherwise the first of the selected layers (the
top layers when the selection is empty) is mapped to its chosen next or
previous superSelectable sibling. -/
def getNextSiblingsForSelectedLayers (t : LayerTree) (previous : Bool) : List (Option Layer) :=
  if t.all.isEmpty then []
  else
    let selectedLayers := if t.selectedLayers.isEmpty then t.top else t.selectedLayers
    (selectedLayers.take 1).map (fun layer =>
      nextSiblingChoice ((t.siblings layer).filter (fun l => l.superSelectable)) layer previous)

/-- Embedding of the layer-ID computation of clickCommand (source lines
355-378): the covered-layer IDs concatenated with the hit IDs are sorted
stably by their position in the hit-test result (missing IDs keep index
-1 and sort first); with deep set the IDs of the leaf layers among them
are kept, otherwise the sorted IDs are intersected with the IDs of the
selectable covered layers. -/
def clickedSelectableLayerIDs (t : LayerTree) (hitLayerIDs : List Nat) (x y : ℚ) (deep : Bool) : List Nat :=
  let coveredLayers := getContainingLayerBounds t x y
  let coveredLayerIDs := sortByKey (jsIndexOf hitLayerIDs) (pluckID coveredLayers ++ hitLayerIDs)
  if deep then
    pluckID (getLeafLayersWithID t coveredLayerIDs)
  else
    intersectionN coveredLayerIDs (pluckID (intersectionL t.selectable coveredLayers))

/-- Embedding of the selection resolution of clickCommand (source lines
380-418), applied to the computed selectable layer IDs: the branch on the
top (last) ID, its layer's selection state and the add modifier, then the
fallback deselect-all or no-op branches.  The pair is the transferred
action and the boolean the promise resolves with. -/
def clickResolve (t : LayerTree) (ids : List Nat) (add : Bool) : Action × Bool :=
  match ids.getLast? with
  | some topLayerID =>
    match t.byID topLayerID with
    | some topLayer =>
      if add && topLayer.selected then
        if isOnlySelectedLayer t topLayer then (Action.deselectAll, false)
        else (Action.select [some topLayerID] Modifier.deselect, true)
      else
        let modifier := if add then Modifier.add else Modifier.select
        if modifier = Modifier.select && topLayer.selected then (Action.noop, true)
        else (Action.select [some topLayerID] modifier, true)
    | none => (Action.noop, false)
  | none =>
    if !t.selectedLayers.isEmpty then (Action.deselectAll, false)
    else (Action.noop, false)

/-- Embedding of clickCommand (source lines 347-420): the window point is
transformed to canvas coordinates by the UI store transform, the hit-test
response is resolved to hit layer IDs, and the click is resolved on the
computed selectable layer IDs. -/
def clickCommand (t : LayerTree) (transform : ℚ → ℚ → ℚ × ℚ) (docId : Nat)
    (response : Except Unit HitResult) (x y : ℚ) (deep add : Bool) : Action × Bool :=
  let coords := transform x y
  let hitLayerIDs := getHitLayerIDs docId coords.1 coords.2 response
  clickResolve t (clickedSelectableLayerIDs t hitLayerIDs coords.1 coords.2 deep) add

/-- The layers doubleClickCommand dives into (source lines 441-446): the
selected layers, or the top layers when the selection is empty. -/
def dcDiveInto (t : LayerTree) : List Layer :=
  if t.selectedLayers.isEmpty then t.top else t.selectedLayers

/-- The diveable children considered by doubleClickCommand (source line
448): the superSelectable children of the dived-into layers. -/
def dcSelectable (t : LayerTree) : List Layer :=
  getDiveableLayers t (dcDiveInto t)

/-- The selected layer the double click landed on (source lines 452-455):
the first selected layer whose ID occurs in the hit-test result. -/
def dcClickedSelected (t : LayerTree) (hitLayerIDs : List Nat) : Option Layer :=
  t.selectedLayers.find? (fun l => decide (l.id ∈ hitLayerIDs))

/-- The dive targets of doubleClickCommand (source lines 470-476): the
hit IDs restricted to the IDs of the diveable children covered at the
point. -/
def dcTargetIDs (t : LayerTree) (hitLayerIDs : List Nat) (x y : ℚ) : List Nat :=
  intersectionN hitLayerIDs
    (pluckID (intersectionL (dcSelectable t) (getContainingLayerBounds t x y)))

/-- Embedding of doubleClickCommand (source lines 433-495): when the
selection has no diveable children, a hit selected layer is re-selected
and edited at the window point, otherwise nothing happens; when diveable
children exist, the top (last) dive target is selected, falling back to
the top layer below the current selection among the covered layers, and
otherwise nothing happens. -/
def doubleClickCommand (t : LayerTree) (transform : ℚ → ℚ → ℚ × ℚ) (docId : Nat)
    (response : Except Unit HitResult) (x y : ℚ) : Action :=
  let coords := transform x y
  let hitLayerIDs := getHitLayerIDs docId coords.1 coords.2 response
  if (dcSelectable t).isEmpty then
    match dcClickedSelected t hitLayerIDs with
    | some clickedLayer => Action.selectThenEdit clickedLayer.id x y
    | none => Action.noop
  else
    match (dcTargetIDs t hitLayerIDs coords.1 coords.2).getLast? with
    | some topTargetID => Action.select [some topTargetID] Modifier.select
    | none =>
      match (getLayersBelowCurrentSelection t (getContainingLayerBounds t coords.1 coords.2)).getLast? with
      | some topLayerID => Action.select [some topLayerID] Modifier.select
      | none => Action.noop

/-- Embedding of backOutCommand (source lines 504-517): select the
parents of the selected layers when there are any; otherwise deselect all
unless noDeselect is set, in which case nothing happens. -/
def backOutCommand (t : LayerTree) (noDeselect : Bool) : Action :=
  let backOutParents := getSelectedLayerParents t noDeselect
  if !backOutParents.isEmpty then
    Action.select (backOutParents.map (fun p => some p.id)) Modifier.select
  else if !noDeselect then Action.deselectAll
  else Action.noop

/-- Embedding of nextSiblingCommand (source lines 525-531): always
transfers a select of the computed next siblings. -/
def nextSiblingCommand (t : LayerTree) (cycleBack : Bool) : Action :=
  Action.select
    ((getNextSiblingsForSelectedLayers t cycleBack).map (fun o => o.map (fun l => l.id)))
    Modifier.select

/-- Embedding of diveInCommand (source lines 539-565): select the first
diveable child of the selection when one exists; otherwise enter edit
mode when exactly one unlocked layer is selected, and do nothing when it
is locked or the selection size differs from one. -/
def diveInCommand (t : LayerTree) : Action :=
  match getDiveableLayers t t.selectedLayers with
  | firstDiveable :: _ => Action.select [some firstDiveable.id] Modifier.select
  | [] =>
    match t.selectedLayers with
    | [topLayer] => if topLayer.locked then Action.noop else Action.editLayer topLayer.id
    | _ => Action.noop

/-- Result of marqueeSelectCommand: the enabled flag of the marquee UI
event dispatched first, and the transferred selection action. -/
structure MarqueeResult where
  marqueeEventEnabled : Option Bool
  action : Action
deriving DecidableEq

/-- Embedding of marqueeSelectCommand (source lines 684-699): the marquee
UI event is dispatched with enabled false first; an empty ID list without
the add flag deselects all, a non-empty list selects the layers looked up
by ID with the add or select modifier, and an empty list with add does
nothing. -/
def marqueeSelectCommand (t : LayerTree) (ids : List Nat) (add : Bool) : MarqueeResult :=
  let layers := ids.map (fun i => t.byID i)
  let modifier := if add then Modifier.add else Modifier.select
  if layers.isEmpty && !add then MarqueeResult.mk (some false) Action.deselectAll
  else if !layers.isEmpty then
    MarqueeResult.mk (some false)
      (Action.select (layers.map (fun o => o.map (fun l => l.id))) modifier)
  else MarqueeResult.mk (some false) Action.noop

/-- The effect editLayerCommand has: nothing, a vector or text edit (tool
change plus a synthesized mouse-down at the point), or a smart-object
edit (host call opening the contents). -/
inductive EditAction where
  | nothing
  | editVector (x y : ℚ)
  | editText (x y : ℚ)
  | editSmartObject
deriving DecidableEq

/-- JavaScript falsiness of an optional numeric argument: missing or
zero. -/
def jsFalsy (v : Option ℚ) : Bool :=
  match v with
  | none => true
  | some q => decide (q = 0)

/-- Embedding of editLayerCommand (source lines 254-332): a background
layer does nothing; a falsy coordinate is replaced by the center of the
layer bounds transformed to window coordinates, and a layer without
bounds then does nothing; the kind then dispatches to the vector, text or
smart-object edit, every other kind doing nothing. -/
def editLayerCommand (transform : ℚ → ℚ → ℚ × ℚ) (layer : Layer) (x y : Option ℚ) : EditAction :=
  if layer.isBackground then EditAction.nothing
  else
    let coords : Option (ℚ × ℚ) :=
      if jsFalsy x || jsFalsy y then
        match layer.bounds with
        | none => none
        | some b => some (transform ((b.right + b.left) / 2) ((b.top + b.bottom) / 2))
      else some ((x.getD 0), (y.getD 0))
    match coords with
    | none => EditAction.nothing
    | some c =>
      match layer.kind with
      | LayerKind.vector => EditAction.editVector c.1 c.2
      | LayerKind.text => EditAction.editText c.1 c.2
      | LayerKind.smartobject => EditAction.editSmartObject
      | _ => EditAction.nothing

/-- The IDs of the selected layers of the tree. -/
def selectedIDs (t : LayerTree) : List Nat :=
  pluckID t.selectedLayers

/-- Modelled from the spec: the selection-state semantics of
layerActions.select and layerActions.deselectAll (js/actions/layers, not
under src/), as a function from the action to the new set of selected
IDs: select replaces the selection, add unions into it, deselect removes
the targets, deselectAll empties it, and the edit and no-op actions leave
it unchanged (selectThenEdit selects its layer first). -/
def applyAction (a : Action) (sel : List Nat) : List Nat :=
  match a with
  | Action.select targets Modifier.select => targets.filterMap id
  | Action.select targets Modifier.add =>
    sel ++ (targets.filterMap id).filter (fun i => decide (i ∉ sel))
  | Action.select targets Modifier.deselect => sel.filter (fun i => decide (some i ∉ targets))
  | Action.deselectAll => []
  | Action.selectThenEdit i _ _ => [i]
  | Action.editLayer _ => sel
  | Action.noop => sel

/-- A ten-by-ten bounding box at the origin, used by concrete fixtures. -/
def bounds10 : Bounds :=
  Bounds.mk 0 0 10 10

/-- A plain unlocked superSelectable pixel layer covered by bounds10,
used by concrete fixtures. -/
def plainLayer (i : Nat) (sel : Bool) : Layer :=
  Layer.mk i sel true false LayerKind.pixel false false none (some bounds10) none

/-- The identity coordinate transform, used by concrete fixtures. -/
def idTransform : ℚ → ℚ → ℚ × ℚ :=
  fun a b => (a, b)

/-- Fixture: two root layers, the second selected. -/
def wTreeA : LayerTree :=
  LayerTree.mk [plainLayer 1 false, plainLayer 2 true] []
    [plainLayer 1 false, plainLayer 2 true]
    [plainLayer 1 false, plainLayer 2 true]
    [plainLayer 1 false, plainLayer 2 true]

/-- Fixture: a selected group with one superSelectable child. -/
def wTreeB : LayerTree :=
  LayerTree.mk
    [Layer.mk 10 true true false LayerKind.group false false none (some bounds10) none,
     plainLayer 11 false]
    [(11, 10)]
    [Layer.mk 10 true true false LayerKind.group false false none (some bounds10) none]
    [plainLayer 11 false]
    [plainLayer 11 false]

/-- Fixture: a single selected root layer with no parent. -/
def wTreeC : LayerTree :=
  LayerTree.mk [plainLayer 1 true] [] [plainLayer 1 true] [plainLayer 1 true] [plainLayer 1 true]

/-- Fixture: a single selected, locked, non-superSelectable root layer. -/
def wTreeD : LayerTree :=
  LayerTree.mk [Layer.mk 1 true false true LayerKind.pixel false false none none none] []
    [Layer.mk 1 true false true LayerKind.pixel false false none none none] []
    [Layer.mk 1 true false true LayerKind.pixel false false none none none]

/-- Fixture: two superSelectable sibling root layers, the first
selected. -/
def wTreeE : LayerTree :=
  LayerTree.mk [plainLayer 1 true, plainLayer 2 false] []
    [plainLayer 1 true, plainLayer 2 false]
    [plainLayer 1 true, plainLayer 2 false]
    [plainLayer 1 true, plainLayer 2 false]

/-- Fixture: an unlocked vector layer with bounds, not a background. -/
def wVectorLayer : Layer :=
  Layer.mk 5 false true false LayerKind.vector false false (some bounds10) none none

/-- Membership of the last element of a list. -/
lemma mem_of_getLast_eq {α : Type} {l : List α} {a : α} (h : l.getLast? = some a) : a ∈ l := by
  have hm : a ∈ l.getLast? := by rw [h]; rfl
  obtain ⟨hne, heq⟩ := List.mem_getLast?_eq_getLast hm
  rw [heq]
  exact List.getLast_mem hne

/-- Filtering the identity over a some-valued map is the underlying map. -/
lemma filterMap_id_map_some (l : List Layer) :
    (l.map (fun p => some p.id)).filterMap id = l.map (fun p => p.id) := by
  induction l with
  | nil => rfl
  | cons a l ih => simp [ih]

/-- Membership in the modelled JavaScript Set insertion. -/
lemma mem_insertUnique (xs : List Layer) (x a : Layer) :
    a ∈ insertUnique xs x ↔ a ∈ xs ∨ a = x := by
  unfold insertUnique
  split
  · rename_i h
    constructor
    · exact Or.inl
    · rintro (h1 | rfl)
      · exact h1
      · exact h
  · simp [List.mem_append]

/-- Claim C2: for every document ID and point, the hit-test query never
rejects: a failing call to the external process resolves with the empty
list of layer IDs and a successful one resolves with the IDs reported
under layersHit. -/
theorem claim_hit_layer_ids_never_reject (docId : Nat) (x y : ℚ) :
    (∀ e : Unit, getHitLayerIDs docId x y (Except.error e) = []) ∧
    (∀ r : HitResult, getHitLayerIDs docId x y (Except.ok r) = r.layersHit) :=
  ⟨fun _ => rfl, fun _ => rfl⟩

/-- Claim C6: diveInCommand selects the first superSelectable child of
the selected layers when one exists; otherwise it enters edit mode when
exactly one unlocked layer is selected, and does nothing when that layer
is locked or the selection size differs from one. -/
theorem claim_dive_in (t : LayerTree) :
    (∀ (f : Layer) (rest : List Layer), getDiveableLayers t t.selectedLayers = f :: rest →
      diveInCommand t = Action.select [some f.id] Modifier.select) ∧
    (getDiveableLayers t t.selectedLayers = [] →
      (∀ l : Layer, t.selectedLayers = [l] → l.locked = false →
        diveInCommand t = Action.editLayer l.id) ∧
      (∀ l : Layer, t.selectedLayers = [l] → l.locked = true → diveInCommand t = Action.noop) ∧
      (t.selectedLayers.length ≠ 1 → diveInCommand t = Action.noop)) := by
  constructor
  · intro f rest h
    simp [diveInCommand, h]
  · intro h
    refine ⟨?_, ?_, ?_⟩
    · intro l hsel hlock
      unfold diveInCommand
      rw [h, hsel]
      simp [hlock]
    · intro l hsel hlock
      unfold diveInCommand
      rw [h, hsel]
      simp [hlock]
    · intro hlen
      simp only [diveInCommand, h]
      rcases hsel : t.selectedLayers with _ | ⟨a, _ | ⟨b, rest⟩⟩
      · rfl
      · rw [hsel] at hlen
        simp at hlen
      · rfl

/-- Claim C6 witness: on the fixture with one selected unlocked layer and
no diveable children, diveInCommand enters edit mode for that layer. -/
theorem claim_dive_in_witness : diveInCommand wTreeA = Action.editLayer 2 :=
  ((claim_dive_in wTreeA).2 (by decide)).1 (plainLayer 2 true) (by decide) (by decide)

/-- Claim C7: marqueeSelectCommand always dispatches the marquee UI event
with enabled false first; an empty ID list without add deselects all, a
non-empty list selects the corresponding layers with the add modifier
when add is set and select otherwise, and an empty list with add performs
no selection action. -/
theorem claim_marquee (t : LayerTree) (ids : List Nat) (add : Bool) :
    (marqueeSelectCommand t ids add).marqueeEventEnabled = some false ∧
    (ids = [] → add = false → (marqueeSelectCommand t ids add).action = Action.deselectAll) ∧
    (ids ≠ [] → (marqueeSelectCommand t ids add).action =
      Action.select (ids.map (fun i => (t.byID i).map (fun l => l.id)))
        (if add then Modifier.add else Modifier.select)) ∧
    (ids = [] → add = true → (marqueeSelectCommand t ids add).action = Action.noop) := by
  refine ⟨?_, ?_, ?_, ?_⟩
  · simp only [marqueeSelectCommand]
    split
    · rfl
    · split
      · rfl
      · rfl
  · rintro rfl rfl
    rfl
  · intro h
    rcases ids with _ | ⟨a, rest⟩
    · exact absurd rfl h
    · simp [marqueeSelectCommand]
  · rintro rfl rfl
    rfl

/-- Claim C7 witness: on the fixture, a marquee over layer 1 without add
disables the marquee event and selects that layer. -/
theorem claim_marquee_witness :
    (marqueeSelectCommand wTreeA [1] false).marqueeEventEnabled = some false ∧
    (marqueeSelectCommand wTreeA [1] false).action = Action.select [some 1] Modifier.select := by
  have h := claim_marquee wTreeA [1] false
  refine ⟨h.1, ?_⟩
  rw [h.2.2.1 (by decide)]
  decide

/-- Claim C10: editLayerCommand does nothing for a background layer
regardless of kind; it does nothing for a layer whose kind is none of
VECTOR, TEXT and SMARTOBJECT; invoked without coordinates it does nothing
when the layer has no bounds, and otherwise uses the center of the layer
bounds (transformed to window coordinates) as the point. -/
theorem claim_edit_layer (transform : ℚ → ℚ → ℚ × ℚ) (layer : Layer) (x y : Option ℚ) :
    (layer.isBackground = true → editLayerCommand transform layer x y = EditAction.nothing) ∧
    (layer.kind ≠ LayerKind.vector → layer.kind ≠ LayerKind.text →
      layer.kind ≠ LayerKind.smartobject →
      editLayerCommand transform layer x y = EditAction.nothing) ∧
    (x = none → y = none → layer.bounds = none →
      editLayerCommand transform layer x y = EditAction.nothing) ∧
    (x = none → y = none → layer.isBackground = false → ∀ b : Bounds, layer.bounds = some b →
      layer.kind = LayerKind.vector →
      editLayerCommand transform layer x y =
        EditAction.editVector (transform ((b.right + b.left) / 2) ((b.top + b.bottom) / 2)).1
          (transform ((b.right + b.left) / 2) ((b.top + b.bottom) / 2)).2) := by
  refine ⟨?_, ?_, ?_, ?_⟩
  · intro h
    simp [editLayerCommand, h]
  · intro h1 h2 h3
    simp only [editLayerCommand]
    split
    · rfl
    · split
      · rfl
      · cases hk : layer.kind
        · exact absurd hk h1
        · exact absurd hk h2
        · exact absurd hk h3
        · rfl
        · rfl
        · rfl
        · rfl
  · rintro rfl rfl hb
    simp only [editLayerCommand]
    split
    · rfl
    · simp [jsFalsy, hb]
  · rintro rfl rfl hbg b hb hk
    simp [editLayerCommand, hbg, jsFalsy, hb, hk]

/-- Claim C10 witness: the fixture vector layer edited without
coordinates resolves to a vector edit at the center of its bounds. -/
theorem claim_edit_layer_witness :
    editLayerCommand idTransform wVectorLayer none none = EditAction.editVector 5 5 := by
  have h := (claim_edit_layer idTransform wVectorLayer none none).2.2.2 rfl rfl (by decide)
    bounds10 rfl rfl
  rw [h]
  simp [idTransform, bounds10]
  norm_num

/-- The top clicked selectable ID (non-deep path) is the ID of a layer of
the tree, so the byID lookup of clickCommand succeeds. -/
lemma byID_eq_some_of_clicked (t : LayerTree) (hit : List Nat) (cx cy : ℚ) (topID : Nat)
    (h : (clickedSelectableLayerIDs t hit cx cy false).getLast? = some topID) :
    ∃ L : Layer, t.byID topID = some L := by
  have hmem := mem_of_getLast_eq h
  simp only [clickedSelectableLayerIDs, Bool.false_eq_true, if_false] at hmem
  unfold intersectionN at hmem
  rw [List.mem_filter] at hmem
  obtain ⟨-, hmem2⟩ := hmem
  simp only [decide_eq_true_eq] at hmem2
  unfold pluckID at hmem2
  rw [List.mem_map] at hmem2
  obtain ⟨L, hL, hLid⟩ := hmem2
  unfold intersectionL at hL
  rw [List.mem_filter] at hL
  obtain ⟨-, hLcov⟩ := hL
  simp only [decide_eq_true_eq] at hLcov
  unfold getContainingLayerBounds at hLcov
  rw [List.mem_filter] at hLcov
  obtain ⟨hLall, -⟩ := hLcov
  have hsome : (t.all.find? (fun l => decide (l.id = topID))).isSome := by
    rw [List.find?_isSome]
    exact ⟨L, hLall, by simp [hLid]⟩
  obtain ⟨L2, hL2⟩ := Option.isSome_iff_exists.mp hsome
  exact ⟨L2, hL2⟩

/-- The ID of a selected layer found by byID is among the selected IDs. -/
lemma mem_selectedIDs_of_byID (t : LayerTree) (i : Nat) (L : Layer)
    (h : t.byID i = some L) (hs : L.selected = true) : i ∈ selectedIDs t := by
  unfold LayerTree.byID at h
  have hp := List.find?_some h
  have hm := List.mem_of_find?_eq_some h
  simp only [decide_eq_true_eq] at hp
  unfold selectedIDs pluckID LayerTree.selectedLayers
  rw [List.mem_map]
  exact ⟨L, List.mem_filter.mpr ⟨hm, hs⟩, hp⟩

/-- The only-selected-layer test holds exactly for the singleton
selection. -/
lemma isOnlySelectedLayer_iff (t : LayerTree) (l : Layer) :
    isOnlySelectedLayer t l = true ↔ t.selectedLayers = [l] := by
  unfold isOnlySelectedLayer
  rcases hEq : t.selectedLayers with _ | ⟨s, _ | ⟨b, rest⟩⟩ <;> simp

/-- Claim C8: a plain (no add) single click whose top z-order hit layer
is already selected dispatches no selection action at all, leaves the
selection unchanged, and resolves true. -/
theorem claim_click_noop (t : LayerTree) (transform : ℚ → ℚ → ℚ × ℚ) (docId : Nat)
    (response : Except Unit HitResult) (x y : ℚ) (deep : Bool) (cx cy : ℚ)
    (hc1 : (transform x y).1 = cx) (hc2 : (transform x y).2 = cy)
    (hit : List Nat) (hhit : getHitLayerIDs docId cx cy response = hit)
    (topID : Nat) (hlast : (clickedSelectableLayerIDs t hit cx cy deep).getLast? = some topID)
    (L : Layer) (hby : t.byID topID = some L) (hsel : L.selected = true) :
    clickCommand t transform docId response x y deep false = (Action.noop, true) ∧
    applyAction (clickCommand t transform docId response x y deep false).1 (selectedIDs t)
      = selectedIDs t := by
  have hcmd : clickCommand t transform docId response x y deep false
      = clickResolve t (clickedSelectableLayerIDs t hit cx cy deep) false := by
    simp only [clickCommand]
    rw [hc1, hc2, hhit]
  have h1 : clickCommand t transform docId response x y deep false = (Action.noop, true) := by
    rw [hcmd]
    simp [clickResolve, hlast, hby, hsel]
  refine ⟨h1, ?_⟩
  rw [h1]
  rfl

/-- Claim C8 witness: on the fixture, a plain click whose hit-test result
is the already-selected layer 2 is a no-op resolving true. -/
theorem claim_click_noop_witness :
    clickCommand wTreeA idTransform 0 (Except.ok (HitResult.mk [2])) 5 5 false false
      = (Action.noop, true) :=
  (claim_click_noop wTreeA idTransform 0 (Except.ok (HitResult.mk [2])) 5 5 false 5 5 rfl rfl
    [2] rfl 2 (by decide) (plainLayer 2 true) (by decide) (by decide)).1

/-- Claim C3: a single click with the add modifier whose top hit layer is
already selected deselects all layers and resolves false when that layer
is the only selected one, and deselects that layer alone (modifier
deselect) when others are also selected; when the top hit layer is not
selected it is added to the existing selection (modifier add) rather than
replacing it. -/
theorem claim_click_add (t : LayerTree) (transform : ℚ → ℚ → ℚ × ℚ) (docId : Nat)
    (response : Except Unit HitResult) (x y : ℚ) (deep : Bool) (cx cy : ℚ)
    (hc1 : (transform x y).1 = cx) (hc2 : (transform x y).2 = cy)
    (hit : List Nat) (hhit : getHitLayerIDs docId cx cy response = hit)
    (topID : Nat) (hlast : (clickedSelectableLayerIDs t hit cx cy deep).getLast? = some topID)
    (L : Layer) (hby : t.byID topID = some L) :
    (L.selected = true → t.selectedLayers = [L] →
      clickCommand t transform docId response x y deep true = (Action.deselectAll, false)) ∧
    (L.selected = true → t.selectedLayers ≠ [L] →
      clickCommand t transform docId response x y deep true
        = (Action.select [some topID] Modifier.deselect, true)) ∧
    (L.selected = false →
      clickCommand t transform docId response x y deep true
        = (Action.select [some topID] Modifier.add, true) ∧
      (∀ i : Nat, i ∈ selectedIDs t →
        i ∈ applyAction (Action.select [some topID] Modifier.add) (selectedIDs t)) ∧
      topID ∈ applyAction (Action.select [some topID] Modifier.add) (selectedIDs t)) := by
  have hcmd : clickCommand t transform docId response x y deep true
      = clickResolve t (clickedSelectableLayerIDs t hit cx cy deep) true := by
    simp only [clickCommand]
    rw [hc1, hc2, hhit]
  refine ⟨?_, ?_, ?_⟩
  · intro hsel honly
    have hio : isOnlySelectedLayer t L = true := (isOnlySelectedLayer_iff t L).mpr honly
    rw [hcmd]
    simp [clickResolve, hlast, hby, hsel, hio]
  · intro hsel hne
    have hio : isOnlySelectedLayer t L = false := by
      cases hio : isOnlySelectedLayer t L
      · rfl
      · exact absurd ((isOnlySelectedLayer_iff t L).mp hio) hne
    rw [hcmd]
    simp [clickResolve, hlast, hby, hsel, hio]
  · intro hsel
    refine ⟨?_, ?_, ?_⟩
    · rw [hcmd]
      simp [clickResolve, hlast, hby, hsel]
    · intro i hi
      simp only [applyAction]
      exact List.mem_append_left _ hi
    · by_cases htop : topID ∈ selectedIDs t
      · simp only [applyAction]
        exact List.mem_append_left _ htop
      · simp only [applyAction]
        refine List.mem_append_right _ ?_
        simp [htop]

/-- Claim C3 witness: on the fixture, an add click whose top hit layer is
the only selected layer deselects all and resolves false. -/
theorem claim_click_add_witness :
    clickCommand wTreeA idTransform 0 (Except.ok (HitResult.mk [2])) 5 5 false true
      = (Action.deselectAll, false) :=
  (claim_click_add wTreeA idTransform 0 (Except.ok (HitResult.mk [2])) 5 5 false 5 5 rfl rfl
    [2] rfl 2 (by decide) (plainLayer 2 true) (by decide)).1 (by decide) (by decide)

/-- Claim C1: for a plain (no add, no deep) single click, when the sorted
selectable layer IDs under the point are non-empty the command resolves
true and the top z-order ID (the last after sorting by hit position) is
selected afterwards, the dispatched action being a plain select of that
layer or, when it is already selected, no action; when the list is empty
and the selection is non-empty the command deselects all and resolves
false; and when the selection is already empty it performs no selection
action and resolves false. -/
theorem claim_click_plain (t : LayerTree) (transform : ℚ → ℚ → ℚ × ℚ) (docId : Nat)
    (response : Except Unit HitResult) (x y : ℚ) (cx cy : ℚ)
    (hc1 : (transform x y).1 = cx) (hc2 : (transform x y).2 = cy)
    (hit : List Nat) (hhit : getHitLayerIDs docId cx cy response = hit)
    (ids : List Nat) (hids : ids = clickedSelectableLayerIDs t hit cx cy false) :
    (∀ topID : Nat, ids.getLast? = some topID →
      (clickCommand t transform docId response x y false false).2 = true ∧
      topID ∈ applyAction (clickCommand t transform docId response x y false false).1
        (selectedIDs t) ∧
      ((clickCommand t transform docId response x y false false).1
          = Action.select [some topID] Modifier.select ∨
        (clickCommand t transform docId response x y false false).1 = Action.noop)) ∧
    (ids = [] → t.selectedLayers ≠ [] →
      clickCommand t transform docId response x y false false = (Action.deselectAll, false)) ∧
    (ids = [] → t.selectedLayers = [] →
      clickCommand t transform docId response x y false false = (Action.noop, false)) := by
  have hcmd : clickCommand t transform docId response x y false false
      = clickResolve t ids false := by
    simp only [clickCommand]
    rw [hc1, hc2, hhit, ← hids]
  refine ⟨?_, ?_, ?_⟩
  · intro topID hlast
    obtain ⟨L, hby⟩ := byID_eq_some_of_clicked t hit cx cy topID (hids ▸ hlast)
    cases hLsel : L.selected
    · have h1 : clickCommand t transform docId response x y false false
          = (Action.select [some topID] Modifier.select, true) := by
        rw [hcmd]
        simp [clickResolve, hlast, hby, hLsel]
      rw [h1]
      refine ⟨rfl, ?_, Or.inl rfl⟩
      simp [applyAction]
    · have h1 : clickCommand t transform docId response x y false false
          = (Action.noop, true) := by
        rw [hcmd]
        simp [clickResolve, hlast, hby, hLsel]
      rw [h1]
      exact ⟨rfl, mem_selectedIDs_of_byID t topID L hby hLsel, Or.inr rfl⟩
  · intro hnil hne
    have hse : t.selectedLayers.isEmpty = false := by
      rcases hsel : t.selectedLayers with _ | ⟨a, rest⟩
      · exact absurd hsel hne
      · simp
    rw [hcmd, hnil]
    simp [clickResolve, hse]
  · intro hnil hsel
    rw [hcmd, hnil]
    simp [clickResolve, hsel]

/-- Claim C1 witness: on the fixture, a plain click hitting the
unselected layer 1 resolves true and layer 1 is selected afterwards. -/
theorem claim_click_plain_witness :
    (clickCommand wTreeA idTransform 0 (Except.ok (HitResult.mk [1])) 5 5 false false).2 = true ∧
    1 ∈ applyAction
      (clickCommand wTreeA idTransform 0 (Except.ok (HitResult.mk [1])) 5 5 false false).1
      (selectedIDs wTreeA) := by
  have h := claim_click_plain wTreeA idTransform 0 (Except.ok (HitResult.mk [1])) 5 5 5 5
    rfl rfl [1] rfl _ rfl
  have h2 := h.1 1 (by decide)
  exact ⟨h2.1, h2.2.1⟩

/-- Claim C4: for a double click, when the selection (or the top layers
for an empty selection) has superSelectable children, the command selects
the top z-order layer among those simultaneously hit, covered at the
point and diveable, falling back, when none was clicked, to the top layer
below the current selection among the covered unlocked non-group-end
layers that are not ancestors of the selection, and otherwise does
nothing; when there are no superSelectable children at all, a hit
selected layer is re-selected and its edit mode entered, and otherwise
nothing happens. -/
theorem claim_double_click (t : LayerTree) (transform : ℚ → ℚ → ℚ × ℚ) (docId : Nat)
    (response : Except Unit HitResult) (x y : ℚ) (cx cy : ℚ)
    (hc1 : (transform x y).1 = cx) (hc2 : (transform x y).2 = cy)
    (hit : List Nat) (hhit : getHitLayerIDs docId cx cy response = hit) :
    (dcSelectable t = [] → ∀ l : Layer, dcClickedSelected t hit = some l →
      doubleClickCommand t transform docId response x y = Action.selectThenEdit l.id x y) ∧
    (dcSelectable t = [] → dcClickedSelected t hit = none →
      doubleClickCommand t transform docId response x y = Action.noop) ∧
    (dcSelectable t ≠ [] → ∀ n : Nat, (dcTargetIDs t hit cx cy).getLast? = some n →
      doubleClickCommand t transform docId response x y
        = Action.select [some n] Modifier.select) ∧
    (dcSelectable t ≠ [] → dcTargetIDs t hit cx cy = [] →
      ∀ n : Nat,
        (getLayersBelowCurrentSelection t (getContainingLayerBounds t cx cy)).getLast? = some n →
      doubleClickCommand t transform docId response x y
        = Action.select [some n] Modifier.select) ∧
    (dcSelectable t ≠ [] → dcTargetIDs t hit cx cy = [] →
      getLayersBelowCurrentSelection t (getContainingLayerBounds t cx cy) = [] →
      doubleClickCommand t transform docId response x y = Action.noop) := by
  have hempty : ∀ h : dcSelectable t ≠ [], (dcSelectable t).isEmpty = false := by
    intro h
    rcases hd : dcSelectable t with _ | ⟨a, rest⟩
    · exact absurd hd h
    · simp
  refine ⟨?_, ?_, ?_, ?_, ?_⟩
  · intro h l hcl
    simp only [doubleClickCommand]
    rw [hc1, hc2, hhit, h]
    simp [hcl]
  · intro h hcl
    simp only [doubleClickCommand]
    rw [hc1, hc2, hhit, h]
    simp [hcl]
  · intro h n hn
    simp only [doubleClickCommand]
    rw [hc1, hc2, hhit]
    simp [hempty h, hn]
  · intro h htarget n hn
    simp only [doubleClickCommand]
    rw [hc1, hc2, hhit]
    simp [hempty h, htarget, hn]
  · intro h htarget hunder
    simp only [doubleClickCommand]
    rw [hc1, hc2, hhit]
    simp [hempty h, htarget, hunder]

/-- Claim C4 witness: on the group fixture, double clicking on the hit,
covered, diveable child layer 11 selects it. -/
theorem claim_double_click_witness :
    doubleClickCommand wTreeB idTransform 0 (Except.ok (HitResult.mk [11])) 5 5
      = Action.select [some 11] Modifier.select :=
  (claim_double_click wTreeB idTransform 0 (Except.ok (HitResult.mk [11])) 5 5 5 5
    rfl rfl [11] rfl).2.2.1 (by decide) 11 (by decide)

/-- Membership after one step of the parent-collecting fold of
getSelectedLayerParents: the accumulator gains the parent of the
processed layer, or, with noDeselect set, the processed parentless layer
itself. -/
lemma mem_backOut_step (t : LayerTree) (nd : Bool) (acc : List Layer) (s l : Layer) :
    (l ∈ (fun (parents : List Layer) (layer : Layer) =>
        match t.parent layer with
        | some p => insertUnique parents p
        | none => if nd then insertUnique parents layer else parents) acc s) ↔
      (l ∈ acc ∨ (t.parent s = some l ∨ (nd = true ∧ s = l ∧ t.parent s = none))) := by
  show (l ∈ (match t.parent s with
      | some p => insertUnique acc p
      | none => if nd then insertUnique acc s else acc)) ↔ _
  rcases hp : t.parent s with _ | p
  · cases nd
    · constructor
      · intro h
        exact Or.inl h
      · rintro (h | h | ⟨hnd, -, -⟩)
        · exact h
        · exact Option.noConfusion h
        · exact Bool.noConfusion hnd
    · constructor
      · intro h
        rcases (mem_insertUnique acc s l).mp h with h3 | heq
        · exact Or.inl h3
        · exact Or.inr (Or.inr ⟨rfl, heq.symm, rfl⟩)
      · rintro (h | h | ⟨-, heq, -⟩)
        · exact (mem_insertUnique acc s l).mpr (Or.inl h)
        · exact Option.noConfusion h
        · exact (mem_insertUnique acc s l).mpr (Or.inr heq.symm)
  · constructor
    · intro h
      rcases (mem_insertUnique acc p l).mp h with h3 | heq
      · exact Or.inl h3
      · exact Or.inr (Or.inl (by rw [heq]))
    · rintro (h | h | ⟨-, -, h⟩)
      · exact (mem_insertUnique acc p l).mpr (Or.inl h)
      · exact (mem_insertUnique acc p l).mpr (Or.inr (Option.some_injective _ h).symm)
      · exact Option.noConfusion h

/-- Membership in the parent-collecting fold of getSelectedLayerParents:
an element is collected exactly when it is the parent of a processed
layer, or, with noDeselect set, a processed parentless layer itself. -/
lemma mem_backOut_foldl (t : LayerTree) (nd : Bool) (l : Layer) :
    ∀ (sel : List Layer) (acc : List Layer),
      (l ∈ sel.foldl
          (fun parents layer =>
            match t.parent layer with
            | some p => insertUnique parents p
            | none => if nd then insertUnique parents layer else parents)
          acc ↔
        l ∈ acc ∨ ∃ s ∈ sel, (t.parent s = some l ∨ (nd = true ∧ s = l ∧ t.parent s = none))) := by
  intro sel
  induction sel with
  | nil =>
    intro acc
    simp
  | cons s rest ih =>
    intro acc
    rw [List.foldl_cons, ih, mem_backOut_step t nd acc s l]
    simp only [List.mem_cons, exists_eq_or_imp]
    exact or_assoc

/-- Claim C5 counterexample: on the fixture with a single selected
parentless layer, no selected layer has a parent and noDeselect is true,
yet backOutCommand is not a no-op: it dispatches a select of that very
layer. -/
theorem claim_back_out_cex :
    (∀ s ∈ wTreeC.selectedLayers, wTreeC.parent s = none) ∧
    wTreeC.selectedLayers ≠ [] ∧
    backOutCommand wTreeC true = Action.select [some 1] Modifier.select ∧
    backOutCommand wTreeC true ≠ Action.noop :=
  ⟨by decide, by decide, by decide, by decide⟩

/-- Claim C5 (amended): backOutCommand selects exactly the parents of the
selected layers, a selected parentless layer being kept among them when
noDeselect is true; when that parent collection is empty it deselects all
unless noDeselect is set, in which case nothing happens; when no selected
layer has a parent and noDeselect is false all layers are deselected; and
when no selected layer has a parent and noDeselect is true the set of
selected layers is left unchanged (the already-selected parentless layers
are re-selected when the selection is non-empty, and nothing happens when
it is empty). -/
theorem claim_back_out (t : LayerTree) (noDeselect : Bool)
    (ps : List Layer) (hps : ps = getSelectedLayerParents t noDeselect) :
    (∀ l : Layer, l ∈ ps ↔
      ((∃ s ∈ t.selectedLayers, t.parent s = some l) ∨
        (noDeselect = true ∧ l ∈ t.selectedLayers ∧ t.parent l = none))) ∧
    (ps ≠ [] → backOutCommand t noDeselect
      = Action.select (ps.map (fun p => some p.id)) Modifier.select) ∧
    (ps = [] → noDeselect = false → backOutCommand t noDeselect = Action.deselectAll) ∧
    (ps = [] → noDeselect = true → backOutCommand t noDeselect = Action.noop) ∧
    ((∀ s ∈ t.selectedLayers, t.parent s = none) → noDeselect = false →
      backOutCommand t noDeselect = Action.deselectAll) ∧
    ((∀ s ∈ t.selectedLayers, t.parent s = none) → noDeselect = true →
      ∀ i : Nat,
        i ∈ applyAction (backOutCommand t noDeselect) (selectedIDs t) ↔ i ∈ selectedIDs t) := by
  have hiff : ∀ l : Layer, l ∈ ps ↔
      ((∃ s ∈ t.selectedLayers, t.parent s = some l) ∨
        (noDeselect = true ∧ l ∈ t.selectedLayers ∧ t.parent l = none)) := by
    intro l
    rw [hps]
    unfold getSelectedLayerParents
    rw [mem_backOut_foldl t noDeselect l t.selectedLayers []]
    simp only [List.mem_nil_iff, false_or]
    constructor
    · rintro ⟨s, hs, hcase | ⟨hnd, rfl, hpar⟩⟩
      · exact Or.inl ⟨s, hs, hcase⟩
      · exact Or.inr ⟨hnd, hs, hpar⟩
    · rintro (⟨s, hs, hcase⟩ | ⟨hnd, hl, hpar⟩)
      · exact ⟨s, hs, Or.inl hcase⟩
      · exact ⟨l, hl, Or.inr ⟨hnd, rfl, hpar⟩⟩
  have hsel : ps ≠ [] → backOutCommand t noDeselect
      = Action.select (ps.map (fun p => some p.id)) Modifier.select := by
    intro h
    have hne : (getSelectedLayerParents t noDeselect).isEmpty = false := by
      rw [← hps]
      rcases hd : ps with _ | ⟨a, rest⟩
      · exact absurd hd h
      · simp
    simp only [backOutCommand]
    rw [hne, ← hps]
    rfl
  have hnil : ps = [] → backOutCommand t noDeselect
      = (if noDeselect then Action.noop else Action.deselectAll) := by
    intro h
    have hne : (getSelectedLayerParents t noDeselect).isEmpty = true := by
      rw [← hps, h]
      rfl
    simp only [backOutCommand]
    rw [hne]
    cases noDeselect
    · rfl
    · rfl
  have hroot : (∀ s ∈ t.selectedLayers, t.parent s = none) → noDeselect = false → ps = [] := by
    intro hall hnd
    rcases hd : ps with _ | ⟨a, rest⟩
    · rfl
    · exfalso
      have ha : a ∈ ps := by
        rw [hd]
        exact List.mem_cons_self a rest
      rcases (hiff a).mp ha with ⟨s, hs, hpar⟩ | ⟨hnd2, -, -⟩
      · rw [hall s hs] at hpar
        exact absurd hpar (by simp)
      · rw [hnd] at hnd2
        exact absurd hnd2 (by simp)
  refine ⟨hiff, hsel, ?_, ?_, ?_, ?_⟩
  · intro h hnd
    rw [hnil h, hnd]
    rfl
  · intro h hnd
    rw [hnil h, hnd]
    rfl
  · intro hall hnd
    rw [hnil (hroot hall hnd), hnd]
    rfl
  · intro hall hnd i
    by_cases hP : ps = []
    · rw [hnil hP, hnd]
      rfl
    · rw [hsel hP]
      simp only [applyAction, filterMap_id_map_some, List.mem_map]
      unfold selectedIDs pluckID
      rw [List.mem_map]
      constructor
      · rintro ⟨l, hl, rfl⟩
        rcases (hiff l).mp hl with ⟨s, hs, hpar⟩ | ⟨-, hl2, -⟩
        · rw [hall s hs] at hpar
          exact absurd hpar (by simp)
        · exact ⟨l, hl2, rfl⟩
      · rintro ⟨l, hl, rfl⟩
        refine ⟨l, ?_, rfl⟩
        exact (hiff l).mpr (Or.inr ⟨hnd, hl, hall l hl⟩)

/-- Claim C5 witness: on the fixture with a selected parentless layer and
noDeselect set, the parent collection keeps that layer and backOutCommand
selects it. -/
theorem claim_back_out_witness :
    backOutCommand wTreeA true = Action.select [some 2] Modifier.select := by
  have h := claim_back_out wTreeA true (getSelectedLayerParents wTreeA true) rfl
  rw [h.2.1 (by decide)]
  decide

/-- The JavaScript remainder by a non-zero length is defined and lies
strictly between the negated length and the length. -/
lemma jsRem_eq_some (a : Int) (n : Nat) (hn : n ≠ 0) :
    ∃ r : Int, jsRem a n = some r ∧ -(n : Int) < r ∧ r < n := by
  unfold jsRem
  rw [if_neg hn]
  have hn2 : (0 : Int) < n := by exact_mod_cast Nat.pos_of_ne_zero hn
  by_cases h : 0 ≤ a
  · rw [if_pos h]
    refine ⟨a % (n : Int), rfl, ?_, Int.emod_lt_of_pos a hn2⟩
    have := Int.emod_nonneg a (by omega : (n : Int) ≠ 0)
    omega
  · rw [if_neg h]
    refine ⟨-((-a) % (n : Int)), rfl, ?_, ?_⟩
    · have := Int.emod_lt_of_pos (-a) hn2
      omega
    · have := Int.emod_nonneg (-a) (by omega : (n : Int) ≠ 0)
      omega

/-- Reduction of the wrapping Immutable get at a defined index. -/
lemma jsListGet_some (l : List Layer) (i : Int) :
    jsListGet l (some i)
      = (if 0 ≤ i ∧ i < (l.length : Int) then l[i.toNat]?
        else if -(l.length : Int) ≤ i ∧ i < 0 then l[(i + (l.length : Int)).toNat]?
        else none) := rfl

/-- The wrapping Immutable get at an index strictly between the negated
length and the length returns an element of the list. -/
lemma jsListGet_mem (l : List Layer) (r : Int)
    (h1 : -(l.length : Int) < r) (h2 : r < l.length) :
    ∃ c : Layer, jsListGet l (some r) = some c ∧ c ∈ l := by
  rw [jsListGet_some]
  by_cases h : 0 ≤ r ∧ r < (l.length : Int)
  · rw [if_pos h]
    have hlt : r.toNat < l.length := by omega
    exact ⟨l[r.toNat], List.getElem?_eq_getElem hlt, List.getElem_mem hlt⟩
  · have h3 : r < 0 := by omega
    rw [if_neg h, if_pos ⟨le_of_lt h1, h3⟩]
    have hlt : (r + (l.length : Int)).toNat < l.length := by omega
    exact ⟨l[(r + (l.length : Int)).toNat], List.getElem?_eq_getElem hlt, List.getElem_mem hlt⟩

/-- Claim C9 counterexample: on the fixture, the layer list is non-empty,
yet nextSiblingCommand selects an undefined target rather than exactly
one layer: the first selected layer has no superSelectable sibling, the
sibling list is empty, the JavaScript remainder by zero is NaN, and the
Immutable get returns undefined. -/
theorem claim_next_sibling_cex :
    wTreeD.all ≠ [] ∧
    nextSiblingCommand wTreeD false = Action.select [none] Modifier.select :=
  ⟨by decide, by decide⟩

/-- Claim C9 (amended): for a non-empty layer tree, nextSiblingCommand
considers only the first selected layer (or the first top layer when the
selection is empty); provided that layer has at least one superSelectable
sibling, the command selects exactly one layer, the chosen sibling at the
stepped index, wrapping in both directions: stepping forward from the
last sibling yields the first, and stepping backward from the first
yields the last (via the negative-index Immutable get on the -1 produced
by the JavaScript remainder).  Without that proviso the command passes an
undefined target to the selection. -/
theorem claim_next_sibling (t : LayerTree) (cycleBack : Bool) (layer : Layer)
    (hall : t.all ≠ [])
    (hsel : (if t.selectedLayers.isEmpty then t.top else t.selectedLayers).take 1 = [layer])
    (sibs : List Layer) (hsibs : sibs = (t.siblings layer).filter (fun l => l.superSelectable))
    (hne : sibs ≠ []) :
    nextSiblingCommand t cycleBack
      = Action.select [(nextSiblingChoice sibs layer cycleBack).map (fun l => l.id)]
          Modifier.select ∧
    (∃ c : Layer, nextSiblingChoice sibs layer cycleBack = some c ∧ c ∈ sibs) ∧
    (cycleBack = false → jsIndexOfLayer sibs layer = (sibs.length : Int) - 1 →
      nextSiblingChoice sibs layer cycleBack = sibs.head?) ∧
    (cycleBack = true → jsIndexOfLayer sibs layer = 0 →
      nextSiblingChoice sibs layer cycleBack = sibs.getLast?) := by
  have hn0 : sibs.length ≠ 0 := by
    intro h
    exact hne (List.length_eq_zero.mp h)
  have hE : sibs.isEmpty = false := by
    rcases sibs with _ | ⟨a, rest⟩
    · exact absurd rfl hne
    · rfl
  refine ⟨?_, ?_, ?_, ?_⟩
  · have hallE : t.all.isEmpty = false := by
      rcases h : t.all with _ | ⟨a, rest⟩
      · exact absurd h hall
      · rfl
    unfold nextSiblingCommand getNextSiblingsForSelectedLayers
    rw [hallE]
    simp only [Bool.false_eq_true, if_false]
    rw [hsel]
    simp only [List.map_cons, List.map_nil]
    rw [← hsibs]
  · obtain ⟨r, hr, hr1, hr2⟩ :=
      jsRem_eq_some (jsIndexOfLayer sibs layer + (if cycleBack = true then (-1 : Int) else 1))
        sibs.length hn0
    unfold nextSiblingChoice
    simp only [hE, Bool.false_eq_true, if_false]
    rw [hr]
    exact jsListGet_mem sibs r hr1 hr2
  · intro hcb hidx
    have ha : jsIndexOfLayer sibs layer + (if cycleBack = true then (-1 : Int) else 1)
        = (sibs.length : Int) := by
      rw [hcb, hidx]
      norm_num
    unfold nextSiblingChoice
    simp only [hE, Bool.false_eq_true, if_false]
    rw [ha]
    have hrem : jsRem (sibs.length : Int) sibs.length = some 0 := by
      unfold jsRem
      rw [if_neg hn0, if_pos (by positivity : (0 : Int) ≤ (sibs.length : Int))]
      rw [Int.emod_self]
    rw [hrem]
    have hget : jsListGet sibs (some 0) = sibs[0]? := by
      rw [jsListGet_some,
        if_pos ⟨le_refl 0, by exact_mod_cast Nat.pos_of_ne_zero hn0⟩]
      rfl
    rw [hget]
    exact (List.head?_eq_getElem? sibs).symm
  · intro hcb hidx
    have ha : jsIndexOfLayer sibs layer + (if cycleBack = true then (-1 : Int) else 1)
        = (-1 : Int) := by
      rw [hcb, hidx]
      norm_num
    unfold nextSiblingChoice
    simp only [hE, Bool.false_eq_true, if_false]
    rw [ha]
    have hrem : jsRem (-1 : Int) sibs.length = some (-((1 : Int) % (sibs.length : Int))) := by
      unfold jsRem
      rw [if_neg hn0, if_neg (by omega : ¬ (0 : Int) ≤ -1)]
      norm_num
    rw [hrem]
    by_cases h1 : sibs.length = 1
    · have hmod : (1 : Int) % (sibs.length : Int) = 0 := by
        rw [h1]
        norm_num
      rw [hmod]
      have hget : jsListGet sibs (some (-0)) = sibs[0]? := by
        rw [jsListGet_some,
          if_pos ⟨by norm_num, by have := Nat.pos_of_ne_zero hn0; omega⟩]
        norm_num
      rw [hget, List.getLast?_eq_getElem?, h1]
    · have hge : 2 ≤ sibs.length := by omega
      have hmod : (1 : Int) % (sibs.length : Int) = 1 :=
        Int.emod_eq_of_lt (by norm_num) (by exact_mod_cast hge)
      rw [hmod]
      have hget : jsListGet sibs (some (-1)) = sibs[sibs.length - 1]? := by
        rw [jsListGet_some, if_neg (by omega), if_pos ⟨by omega, by norm_num⟩]
        congr 1
        omega
      rw [hget, List.getLast?_eq_getElem?]

/-- Claim C9 witness: on the two-sibling fixture with the first layer
selected, stepping forward selects exactly the second sibling. -/
theorem claim_next_sibling_witness :
    nextSiblingCommand wTreeE false = Action.select [some 2] Modifier.select := by
  have h := claim_next_sibling wTreeE false (plainLayer 1 true) (by decide) (by decide)
    ((wTreeE.siblings (plainLayer 1 true)).filter (fun l => l.superSelectable)) rfl (by decide)
  rw [h.1]
  decide

end SuperSelect
